import Mathlib

/-!
Verification of the `romana` watcher plugin for `vpcrouter`
(`vpcrouter_romana_plugin/romana.py`).

The plugin watches a JSON topology document held under a single etcd key,
converts it into a route spec (a dict mapping CIDR strings to lists of host
IP strings), publishes the spec on a queue, and supervises the etcd
connection and watch registration.

The embedding follows the Python source.  JSON values are modelled by the
inductive `JVal`; Python `d[k]` subscripting on decoded JSON becomes
`JVal.getField`, returning `Option` (a missing key, which would raise
`KeyError`, or a non-dict receiver, which would raise `TypeError`, is
`none`); each `try/except` block becomes a total function that returns the
unchanged state on the failing branches; outcomes of the calls into the
external etcd client (connect, status, get, watch registration) and into the
external route-spec validator `common.parse_route_spec_config` are supplied
as explicit `Except`-valued parameters.
-/

/-- A JSON value, as produced by `json.loads`.  Objects keep the document
field order, as Python dicts do; keys of one object are assumed distinct, as
`json.loads` produces. -/
inductive JVal where
  | null
  | str (s : String)
  | num (n : Int)
  | arr (xs : List JVal)
  | obj (fields : List (String × JVal))

mutual

/-- Structural (Python `==`) equality test on JSON values. -/
def JVal.beq : JVal → JVal → Bool
  | .null, .null => true
  | .str a, .str b => a == b
  | .num a, .num b => a == b
  | .arr xs, .arr ys => JVal.beqL xs ys
  | .obj fs, .obj gs => JVal.beqO fs gs
  | _, _ => false

/-- Elementwise `JVal.beq` on JSON arrays. -/
def JVal.beqL : List JVal → List JVal → Bool
  | [], [] => true
  | x :: xs, y :: ys => JVal.beq x y && JVal.beqL xs ys
  | _, _ => false

/-- Elementwise `JVal.beq` on JSON object field lists. -/
def JVal.beqO : List (String × JVal) → List (String × JVal) → Bool
  | [], [] => true
  | (k, v) :: xs, (l, w) :: ys => k == l && JVal.beq v w && JVal.beqO xs ys
  | _, _ => false

end

mutual

theorem JVal.beq_refl : ∀ a : JVal, JVal.beq a a = true
  | .null => rfl
  | .str s => by simp [JVal.beq]
  | .num n => by simp [JVal.beq]
  | .arr xs => JVal.beqL_refl xs
  | .obj fs => JVal.beqO_refl fs

theorem JVal.beqL_refl : ∀ xs : List JVal, JVal.beqL xs xs = true
  | [] => rfl
  | x :: xs => by simp [JVal.beqL, JVal.beq_refl x, JVal.beqL_refl xs]

theorem JVal.beqO_refl : ∀ xs : List (String × JVal), JVal.beqO xs xs = true
  | [] => rfl
  | (k, v) :: xs => by simp [JVal.beqO, JVal.beq_refl v, JVal.beqO_refl xs]

end

mutual

theorem JVal.eq_of_beq : ∀ a b : JVal, JVal.beq a b = true → a = b
  | .null, .null, _ => rfl
  | .null, .str _, h | .null, .num _, h | .null, .arr _, h | .null, .obj _, h => nomatch h
  | .str _, .null, h | .str _, .num _, h | .str _, .arr _, h | .str _, .obj _, h => nomatch h
  | .num _, .null, h | .num _, .str _, h | .num _, .arr _, h | .num _, .obj _, h => nomatch h
  | .arr _, .null, h | .arr _, .str _, h | .arr _, .num _, h | .arr _, .obj _, h => nomatch h
  | .obj _, .null, h | .obj _, .str _, h | .obj _, .num _, h | .obj _, .arr _, h => nomatch h
  | .str a, .str b, h => by
      simp only [JVal.beq, beq_iff_eq] at h
      exact congrArg JVal.str h
  | .num a, .num b, h => by
      simp only [JVal.beq, beq_iff_eq] at h
      exact congrArg JVal.num h
  | .arr xs, .arr ys, h => congrArg JVal.arr (JVal.eqL_of_beqL xs ys h)
  | .obj fs, .obj gs, h => congrArg JVal.obj (JVal.eqO_of_beqO fs gs h)

theorem JVal.eqL_of_beqL : ∀ xs ys : List JVal, JVal.beqL xs ys = true → xs = ys
  | [], [], _ => rfl
  | [], _ :: _, h | _ :: _, [], h => nomatch h
  | x :: xs, y :: ys, h => by
      simp only [JVal.beqL, Bool.and_eq_true] at h
      exact congrArg₂ List.cons (JVal.eq_of_beq x y h.1) (JVal.eqL_of_beqL xs ys h.2)

theorem JVal.eqO_of_beqO : ∀ xs ys : List (String × JVal), JVal.beqO xs ys = true → xs = ys
  | [], [], _ => rfl
  | [], _ :: _, h | _ :: _, [], h => nomatch h
  | (k, v) :: xs, (l, w) :: ys, h => by
      simp only [JVal.beqO, Bool.and_eq_true, beq_iff_eq] at h
      have h1 := h.1
      exact congrArg₂ List.cons (by rw [h1.1, JVal.eq_of_beq v w h1.2])
        (JVal.eqO_of_beqO xs ys h.2)

end

instance : DecidableEq JVal := fun a b =>
  decidable_of_iff (JVal.beq a b = true)
    ⟨JVal.eq_of_beq a b, fun h => h ▸ JVal.beq_refl a⟩

/-- Python dict subscripting `d[k]` on a decoded JSON value: `some` the
binding of `k` when `d` is an object carrying the key, `none` otherwise
(where the Python code would raise `KeyError` or `TypeError`). -/
def JVal.getField : JVal → String → Option JVal
  | .obj fields, k => fields.lookup k
  | _, _ => none

namespace Romana

/-- The artifact published to the `q_route_spec` queue: a Python dict from
CIDR (dict key, any hashable JSON value in general, a string in well-formed
documents) to the list of host IP values, in insertion order. -/
abbrev RouteSpec := List (JVal × List JVal)

/-- Line 58 of `romana.py`: `cidr = net_data['groups']['cidr']`. -/
def cidrOf (nd : JVal) : Option JVal :=
  (nd.getField "groups").bind (fun g => g.getField "cidr")

/-- The value `net_data['groups']['hosts']` read on line 59, before it is
iterated over. -/
def rawHostsOf (nd : JVal) : Option JVal :=
  (nd.getField "groups").bind (fun g => g.getField "hosts")

/-- The list comprehension `[h['ip'] for h in hosts]` on line 59: fails as a
whole when any element lacks an `ip` field. -/
def hostIps : List JVal → Option (List JVal)
  | [] => some []
  | h :: t =>
    match h.getField "ip" with
    | none => none
    | some v =>
      match hostIps t with
      | none => none
      | some vs => some (v :: vs)

/-- Line 59 of `romana.py` in full: `hosts = [h['ip'] for h in
net_data['groups']['hosts']]`.  The `hosts` value must be a JSON array of
objects each carrying an `ip` field. -/
def hostsOf (nd : JVal) : Option (List JVal) :=
  match rawHostsOf nd with
  | some (.arr hs) => hostIps hs
  | _ => none

/-- Python dict assignment `route_spec[cidr] = hosts` (line 60): replaces the
value in place when the key is already present, otherwise appends. -/
def dictInsert : RouteSpec → JVal → List JVal → RouteSpec
  | [], k, v => [(k, v)]
  | (k', v') :: rest, k, v =>
    if k' = k then (k', v) :: rest else (k', v') :: dictInsert rest k v

/-- Python dict read `rs[k]`, used to state properties of the built spec. -/
def lookupKey : RouteSpec → JVal → Option (List JVal)
  | [], _ => none
  | (k', v) :: rest, k => if k' = k then some v else lookupKey rest k

/-- The `for net_name, net_data in d['networks'].items()` loop of lines
57-60, folding the entries into the `route_spec` dict; any `KeyError` or
shape error inside the loop body aborts the whole computation. -/
def buildLoop : List (String × JVal) → RouteSpec → Option RouteSpec
  | [], acc => some acc
  | (_, nd) :: rest, acc =>
    match cidrOf nd with
    | none => none
    | some c =>
      match hostsOf nd with
      | none => none
      | some hs => buildLoop rest (dictInsert acc c hs)

/-- The parse-and-build step of `load_topology_send_route_spec` (lines
55-60): read `d['networks']`, iterate its items, and produce the
`route_spec` dict, or fail (an exception in the Python code). -/
def parse_build (d : JVal) : Option RouteSpec :=
  match d.getField "networks" with
  | some (.obj nets) => buildLoop nets []
  | _ => none

/-- `load_topology_send_route_spec` (lines 48-66).  `fetch` is the combined
outcome of `self.etcd.get(self.key)[0]` and `json.loads` on it; `validate`
is the external `common.parse_route_spec_config` collaborator; `q` is the
content of the `q_route_spec` sink.  The whole body is wrapped in
`try/except Exception`, so the function is total and returns the queue
unchanged on every failing branch. -/
def load_topology_send_route_spec (fetch : Except Unit JVal)
    (validate : RouteSpec → Except Unit Unit) (q : List RouteSpec) :
    List RouteSpec :=
  match fetch with
  | .error _ => q
  | .ok d =>
    match parse_build d with
    | none => q
    | some rs =>
      match validate rs with
      | .error _ => q
      | .ok _ => q ++ [rs]

/-- The list of network entries of a document, in document order. -/
def docNetworks (d : JVal) : List (String × JVal) :=
  match d.getField "networks" with
  | some (.obj nets) => nets
  | _ => []

/-- The CIDRs appearing in a document, in document order. -/
def docCidrs (d : JVal) : List JVal :=
  (docNetworks d).filterMap (fun p => cidrOf p.2)

/-- One host object is well formed when it carries a string `ip` field. -/
def wfHost (h : JVal) : Bool :=
  match h.getField "ip" with
  | some (.str _) => true
  | _ => false

/-- One network entry is well formed when it carries a `groups` object with a
string `cidr` and an array `hosts` of well-formed host objects. -/
def wfEntry (nd : JVal) : Bool :=
  match nd.getField "groups" with
  | some g =>
    (match g.getField "cidr" with
     | some (.str _) => true
     | _ => false) &&
    (match g.getField "hosts" with
     | some (.arr hs) => hs.all wfHost
     | _ => false)
  | _ => false

/-- A topology document is well formed when it is an object with a
`networks` object whose entries are all well formed. -/
def wellFormedDoc (d : JVal) : Bool :=
  match d.getField "networks" with
  | some (.obj nets) => nets.all (fun p => wfEntry p.2)
  | _ => false

/-- A host object `{"ip": ip}` of the topology schema. -/
def mkHost (ip : String) : JVal := .obj [("ip", .str ip)]

/-- A network entry `{"groups": {"cidr": c, "hosts": [...]}}`. -/
def mkEntry (cidr : String) (ips : List String) : JVal :=
  .obj [("groups", .obj [("cidr", .str cidr), ("hosts", .arr (ips.map mkHost))])]

/-- A topology document `{"networks": {...}}`. -/
def mkDoc (nets : List (String × JVal)) : JVal := .obj [("networks", .obj nets)]

example :
    parse_build (mkDoc [("net1", mkEntry "10.0.0.0/24" ["10.0.0.1", "10.0.0.2"])]) =
      some [(.str "10.0.0.0/24", [.str "10.0.0.1", .str "10.0.0.2"])] := by
  decide

example : parse_build (JVal.obj []) = none := by decide

/-- Handle of an open etcd3 client, abstracted to an identifier. -/
abbrev Client := Nat

/-- Watch handle returned by `add_watch_callback`, abstracted to an
identifier; Python truthiness of the handle is modelled as presence. -/
abbrev WatchId := Nat

/-- Outcomes of the external collaborators of the plugin for one point in
time: `etcd3.client` (connect), `status`, `get`+`json.loads` (fetch),
`common.parse_route_spec_config` (validate) and `add_watch_callback`.  An
`Except.error` value models the corresponding Python call raising. -/
structure EtcdEnv where
  connect : Except Unit Client
  statusResult : Client → Except Unit Unit
  fetch : Client → Except Unit JVal
  validate : RouteSpec → Except Unit Unit
  addWatch : Client → Except Unit WatchId

/-- The mutable attributes of the `Romana` plugin instance touched by the
supervision logic: `self.etcd`, `self.watch_id`, the `q_route_spec` sink
content, and `self.keep_running`. -/
structure PluginState where
  etcd : Option Client
  watch_id : Option WatchId
  q_route_spec : List RouteSpec
  keep_running : Bool
deriving DecidableEq

/-- `etcd_check_status` (lines 79-95): `True` exactly when a client exists
and its `status()` call succeeds; `False` when there is no connection or the
call raises.  Total by construction, mirroring the internal `try/except`. -/
def etcd_check_status (env : EtcdEnv) (s : PluginState) : Bool :=
  match s.etcd with
  | some c =>
    match env.statusResult c with
    | .ok _ => true
    | .error _ => false
  | none => false

/-- Observable steps attempted inside the guarded body of
`establish_etcd_connection_and_watch`, in execution order. -/
inductive ConnectAction where
  | connect
  | initialLoad
  | registerWatch
deriving DecidableEq

/-- The reconnect guard on lines 102-103: `not self.etcd or not
self.etcd_check_status() or self.watch_id is None`. -/
def connectGuard (env : EtcdEnv) (s : PluginState) : Bool :=
  s.etcd.isNone || !etcd_check_status env s || s.watch_id.isNone

/-- `establish_etcd_connection_and_watch` (lines 97-124), returning the new
plugin state together with the trace of steps that were attempted.  When the
guard fires: connect (`etcd3.client`), then one synchronous
`load_topology_send_route_spec`, then `add_watch_callback`; an exception
from connect or from watch registration reaches the `except` clause, which
sets `self.etcd` and `self.watch_id` to `None`.  The load step absorbs its
own exceptions (lines 54-66) and therefore never reaches that clause. -/
def establish_etcd_connection_and_watch (env : EtcdEnv) (s : PluginState) :
    PluginState × List ConnectAction :=
  if connectGuard env s then
    match env.connect with
    | .error _ => ({ s with etcd := none, watch_id := none }, [.connect])
    | .ok c =>
      let q2 := load_topology_send_route_spec (env.fetch c) env.validate s.q_route_spec
      match env.addWatch c with
      | .error _ =>
        ({ etcd := none, watch_id := none, q_route_spec := q2,
           keep_running := s.keep_running },
         [.connect, .initialLoad, .registerWatch])
      | .ok w =>
        ({ etcd := some c, watch_id := some w, q_route_spec := q2,
           keep_running := s.keep_running },
         [.connect, .initialLoad, .registerWatch])
  else (s, [])

/-- Control locations of the `watch_etcd` loop (lines 126-144) run by the
`RomanaMon` thread: the outer `while self.keep_running` test together with
the loop body, the inner connection-health test, the `time.sleep` call, and
the exit of the function. -/
inductive ThreadLoc where
  | loopTop
  | connCheck
  | sleeping
  | exited
deriving DecidableEq

/-- State of the `RomanaMon` thread: its control location plus the shared
plugin state it reads and writes. -/
structure ThreadState where
  loc : ThreadLoc
  st : PluginState
deriving DecidableEq

/-- One small step of the `watch_etcd` loop.  At `loopTop` the outer
condition is tested and, when it holds, the handles are cleared and one
`establish_etcd_connection_and_watch` call runs; at `connCheck` the inner
`while self.etcd_check_status() and self.keep_running` condition is tested;
`sleeping` models returning from the bounded `time.sleep`; `exited` is
absorbing. -/
def watch_etcd_step (env : EtcdEnv) (t : ThreadState) : ThreadState :=
  match t.loc with
  | .loopTop =>
    if t.st.keep_running then
      let s1 : PluginState := { t.st with etcd := none, watch_id := none }
      { loc := .connCheck, st := (establish_etcd_connection_and_watch env s1).1 }
    else { t with loc := .exited }
  | .connCheck =>
    if etcd_check_status env t.st && t.st.keep_running then
      { t with loc := .sleeping }
    else { t with loc := .loopTop }
  | .sleeping => { t with loc := .connCheck }
  | .exited => t

/-- External effects of `stop`, besides the state change. -/
inductive StopAction where
  | cancelWatch (w : WatchId)
deriving DecidableEq

/-- `stop` (lines 160-170): cancel the active watch when one is registered,
set `self.keep_running = False`, then join the `RomanaMon` thread.  The
returned pair carries the updated flag and the cancellation effect; the join
is settled separately through `watch_etcd_step`. -/
def stop (s : PluginState) : PluginState × List StopAction :=
  match s.watch_id with
  | some w => ({ s with keep_running := false }, [.cancelWatch w])
  | none => ({ s with keep_running := false }, [])

/-- `check_arguments` (lines 188-199): reject the port unless
`0 < port < 65535`, then run the external `utils.ip_check` on the address
unless it is the literal `"localhost"`.  `ipCheck` supplies the outcome of
that external call. -/
def check_arguments (ipCheck : String → Except Unit Unit) (addr : String)
    (port : Int) : Except Unit Unit :=
  if ¬(0 < port ∧ port < 65535) then .error ()
  else if addr = "localhost" then .ok ()
  else ipCheck addr

/-! ## Helper lemmas about the parse-and-build step -/

theorem dictInsert_of_not_mem : ∀ (rs : RouteSpec) (k : JVal) (v : List JVal),
    k ∉ rs.map Prod.fst → dictInsert rs k v = rs ++ [(k, v)]
  | [], _, _, _ => rfl
  | (k', v') :: rest, k, v, hk => by
    rw [List.map_cons, List.mem_cons] at hk
    push_neg at hk
    have hne : ¬ (k' = k) := fun he => hk.1 (Eq.symm he)
    simp only [dictInsert, if_neg hne]
    rw [dictInsert_of_not_mem rest k v hk.2, List.cons_append]

theorem hostIps_isSome : ∀ hs : List JVal, (∀ h ∈ hs, wfHost h = true) →
    ∃ ips, hostIps hs = some ips
  | [], _ => ⟨[], rfl⟩
  | h :: t, hall => by
    have hh := hall h (List.mem_cons_self h t)
    unfold wfHost at hh
    split at hh
    next s hip =>
      obtain ⟨ips, hips⟩ :=
        hostIps_isSome t (fun x hx => hall x (List.mem_cons_of_mem _ hx))
      exact ⟨JVal.str s :: ips, by simp [hostIps, hip, hips]⟩
    next => simp at hh

theorem wfEntry_extract {nd : JVal} (h : wfEntry nd = true) :
    ∃ c hs, cidrOf nd = some (JVal.str c) ∧ hostsOf nd = some hs := by
  unfold wfEntry at h
  split at h
  next g hg =>
    rw [Bool.and_eq_true] at h
    obtain ⟨h1, h2⟩ := h
    split at h1
    next c hc =>
      split at h2
      next hs hhs =>
        obtain ⟨ips, hips⟩ := hostIps_isSome hs (by
          rw [List.all_eq_true] at h2
          exact fun x hx => h2 x hx)
        refine ⟨c, ips, ?_, ?_⟩
        · simp [cidrOf, hg, hc]
        · simp [hostsOf, rawHostsOf, hg, hhs, hips]
      next => simp at h2
    next => simp at h1
  next => simp at h

/-- The pair contributed to the route spec by one well-formed document
entry. -/
def entrySpec (p : String × JVal) : JVal × List JVal :=
  ((cidrOf p.2).getD .null, (hostsOf p.2).getD [])

theorem buildLoop_eq : ∀ (nets : List (String × JVal)) (acc : RouteSpec),
    (∀ p ∈ nets, wfEntry p.2 = true) →
    (nets.filterMap (fun p => cidrOf p.2)).Nodup →
    (∀ k ∈ acc.map Prod.fst, k ∉ nets.filterMap (fun p => cidrOf p.2)) →
    buildLoop nets acc = some (acc ++ nets.map entrySpec)
  | [], acc, _, _, _ => by simp [buildLoop]
  | (nm, nd) :: rest, acc, hwf, hnd, hdisj => by
    obtain ⟨c, hs, hc, hhs⟩ := wfEntry_extract (hwf (nm, nd) (List.mem_cons_self _ _))
    have hfm : ((nm, nd) :: rest).filterMap (fun p => cidrOf p.2) =
        JVal.str c :: rest.filterMap (fun p => cidrOf p.2) := by
      simp [List.filterMap_cons, hc]
    rw [hfm] at hnd hdisj
    rw [List.nodup_cons] at hnd
    have hnotmem : JVal.str c ∉ acc.map Prod.fst := fun hmem =>
      hdisj _ hmem (List.mem_cons_self _ _)
    have hdisj2 : ∀ k ∈ (acc ++ [(JVal.str c, hs)]).map Prod.fst,
        k ∉ rest.filterMap (fun p => cidrOf p.2) := by
      intro k hk
      rw [List.map_append, List.mem_append] at hk
      rcases hk with hk | hk
      · exact fun hm => hdisj k hk (List.mem_cons_of_mem _ hm)
      · simp only [List.map_cons, List.map_nil, List.mem_singleton] at hk
        subst hk
        exact hnd.1
    have IH := buildLoop_eq rest (acc ++ [(JVal.str c, hs)])
      (fun p hp => hwf p (List.mem_cons_of_mem _ hp)) hnd.2 hdisj2
    have step : buildLoop ((nm, nd) :: rest) acc =
        buildLoop rest (dictInsert acc (JVal.str c) hs) := by
      simp [buildLoop, hc, hhs]
    rw [step, dictInsert_of_not_mem _ _ _ hnotmem, IH]
    simp [entrySpec, hc, hhs]

theorem map_entrySpec_fst : ∀ nets : List (String × JVal),
    (∀ p ∈ nets, wfEntry p.2 = true) →
    nets.map (fun p => (entrySpec p).1) = nets.filterMap (fun p => cidrOf p.2)
  | [], _ => rfl
  | p :: rest, hwf => by
    obtain ⟨c, hs, hc, _⟩ := wfEntry_extract (hwf p (List.mem_cons_self _ _))
    have IH := map_entrySpec_fst rest (fun q hq => hwf q (List.mem_cons_of_mem _ hq))
    simp only [List.map_cons, List.filterMap_cons, hc, IH]
    simp [entrySpec, hc]

theorem lookupKey_of_mem_nodup : ∀ (rs : RouteSpec) (k : JVal) (v : List JVal),
    (k, v) ∈ rs → (rs.map Prod.fst).Nodup → lookupKey rs k = some v
  | (k', v') :: rest, k, v, hmem, hnd => by
    rw [List.map_cons, List.nodup_cons] at hnd
    rw [List.mem_cons] at hmem
    rcases hmem with heq | hmem
    · injection heq with h1 h2
      subst h1; subst h2
      simp [lookupKey]
    · have hk : k' ≠ k := by
        intro he; subst he
        exact hnd.1 (List.mem_map.mpr ⟨(k', v), hmem, rfl⟩)
      simp only [lookupKey, if_neg hk]
      exact lookupKey_of_mem_nodup rest k v hmem hnd.2

/-! ## Claim C1 -/

/-- Claim C1: for every well-formed topology document with pairwise distinct
CIDRs (distinctness makes the phrase "that CIDR's group" denote a unique
group), the parse-and-build step of `load_topology_send_route_spec` produces
a route spec whose key list is exactly the list of CIDRs of the document and
whose value at each CIDR is exactly the list of host IPs of that CIDR's
group. -/
theorem romana_wellformed_build_exact (d : JVal)
    (hwf : wellFormedDoc d = true) (hnodup : (docCidrs d).Nodup) :
    ∃ rs, parse_build d = some rs ∧
      rs.map Prod.fst = docCidrs d ∧
      ∀ p ∈ docNetworks d, ∀ c hs, cidrOf p.2 = some c → hostsOf p.2 = some hs →
        lookupKey rs c = some hs := by
  unfold wellFormedDoc at hwf
  split at hwf
  next nets hn =>
    have hents : ∀ p ∈ nets, wfEntry p.2 = true := by
      rw [List.all_eq_true] at hwf
      exact fun p hp => hwf p hp
    have hnn : docNetworks d = nets := by simp [docNetworks, hn]
    have hcc : docCidrs d = nets.filterMap (fun p => cidrOf p.2) := by
      simp [docCidrs, hnn]
    rw [hcc] at hnodup
    have hb := buildLoop_eq nets [] hents hnodup (by simp)
    have hkeys : (nets.map entrySpec).map Prod.fst = docCidrs d := by
      rw [List.map_map, hcc]
      exact map_entrySpec_fst nets hents
    refine ⟨nets.map entrySpec, ?_, hkeys, ?_⟩
    · simp only [parse_build, hn, hb, List.nil_append]
    · intro p hp c hs hc hhs
      rw [hnn] at hp
      have hpe : entrySpec p = (c, hs) := by simp [entrySpec, hc, hhs]
      refine lookupKey_of_mem_nodup _ c hs ?_ ?_
      · exact List.mem_map.mpr ⟨p, hp, hpe⟩
      · rw [hkeys, hcc]; exact hnodup
  next => simp at hwf

/-- The single-network scenario document of the spec. -/
def exDoc : JVal := mkDoc [("net1", mkEntry "10.0.0.0/24" ["10.0.0.1", "10.0.0.2"])]

/-- Witness for C1: the scenario document of the spec satisfies the
hypotheses of `romana_wellformed_build_exact`, and its route spec is
`{"10.0.0.0/24": ["10.0.0.1", "10.0.0.2"]}`. -/
theorem romana_wellformed_build_exact_witness :
    (∃ rs, parse_build exDoc = some rs ∧
      rs.map Prod.fst = docCidrs exDoc ∧
      ∀ p ∈ docNetworks exDoc, ∀ c hs, cidrOf p.2 = some c → hostsOf p.2 = some hs →
        lookupKey rs c = some hs) ∧
    parse_build exDoc =
      some [(.str "10.0.0.0/24", [.str "10.0.0.1", .str "10.0.0.2"])] :=
  ⟨romana_wellformed_build_exact exDoc (by decide) (by decide), by decide⟩

/-! ## Claim C2: duplicate CIDRs -/

theorem hostIps_map_mkHost : ∀ ips : List String,
    hostIps (ips.map mkHost) = some (ips.map JVal.str)
  | [] => rfl
  | ip :: t => by
    simp [hostIps, mkHost, JVal.getField, List.lookup, hostIps_map_mkHost t]

theorem cidrOf_mkEntry (c : String) (ips : List String) :
    cidrOf (mkEntry c ips) = some (.str c) := by
  simp [cidrOf, mkEntry, JVal.getField, List.lookup]

theorem hostsOf_mkEntry (c : String) (ips : List String) :
    hostsOf (mkEntry c ips) = some (ips.map JVal.str) := by
  simp [hostsOf, rawHostsOf, mkEntry, JVal.getField, List.lookup, hostIps_map_mkHost]

/-- A document in which two different network names carry the same CIDR. -/
def dupDoc : JVal :=
  mkDoc [("net1", mkEntry "10.0.0.0/24" ["10.0.0.1"]),
         ("net2", mkEntry "10.0.0.0/24" ["10.0.0.2"])]

/-- Counterexample to claim C2: on a document in which `net1` and `net2`
both carry CIDR `10.0.0.0/24`, the build step does not fail at all — it
returns a route spec (with the later network's hosts), and that spec is
published to the sink, contradicting both "fails with a BuildError" and "no
route spec is published". -/
theorem duplicate_cidr_no_build_failure_cex :
    parse_build dupDoc = some [(.str "10.0.0.0/24", [.str "10.0.0.2"])] ∧
    load_topology_send_route_spec (.ok dupDoc) (fun _ => .ok ()) [] =
      [[(.str "10.0.0.0/24", [.str "10.0.0.2"])]] := by
  decide

/-- Claim C2 (amended): for every topology document in which two network
entries under different network names carry the same CIDR, the build step
succeeds with last-seen-wins semantics — the later entry's hosts silently
overwrite the earlier entry's — and, when the validation collaborator
accepts, the resulting route spec is published to the sink. -/
theorem duplicate_cidr_last_wins (n1 n2 c : String) (ips1 ips2 : List String)
    (validate : RouteSpec → Except Unit Unit) (q : List RouteSpec)
    (hv : validate [(.str c, ips2.map JVal.str)] = .ok ()) :
    parse_build (mkDoc [(n1, mkEntry c ips1), (n2, mkEntry c ips2)]) =
      some [(.str c, ips2.map JVal.str)] ∧
    load_topology_send_route_spec
      (.ok (mkDoc [(n1, mkEntry c ips1), (n2, mkEntry c ips2)])) validate q =
      q ++ [[(.str c, ips2.map JVal.str)]] := by
  have hpb : parse_build (mkDoc [(n1, mkEntry c ips1), (n2, mkEntry c ips2)]) =
      some [(.str c, ips2.map JVal.str)] := by
    simp [parse_build, mkDoc, JVal.getField, List.lookup, buildLoop,
      cidrOf_mkEntry, hostsOf_mkEntry, dictInsert]
  exact ⟨hpb, by simp [load_topology_send_route_spec, hpb, hv]⟩

/-- Witness for the amended C2, instantiated at the two-network document
`dupDoc` and a non-empty sink. -/
theorem duplicate_cidr_last_wins_witness :
    parse_build dupDoc = some [(.str "10.0.0.0/24", [.str "10.0.0.2"])] ∧
    load_topology_send_route_spec (.ok dupDoc) (fun _ => .ok ()) [[]] =
      [[], [(.str "10.0.0.0/24", [.str "10.0.0.2"])]] :=
  duplicate_cidr_last_wins "net1" "net2" "10.0.0.0/24" ["10.0.0.1"] ["10.0.0.2"]
    (fun _ => .ok ()) [[]] rfl

/-! ## Claim C3: malformed documents -/

theorem hostsOf_none_of_rawHosts_none {nd : JVal} (h : rawHostsOf nd = none) :
    hostsOf nd = none := by
  simp [hostsOf, h]

theorem buildLoop_none_of_bad : ∀ (nets : List (String × JVal)) (acc : RouteSpec)
    (p : String × JVal), p ∈ nets →
    (cidrOf p.2 = none ∨ rawHostsOf p.2 = none) →
    buildLoop nets acc = none
  | (nm, nd) :: rest, acc, p, hp, hbad => by
    rw [List.mem_cons] at hp
    rcases hp with rfl | hp
    · rcases hbad with hc | hr
      · simp [buildLoop, hc]
      · cases hcs : cidrOf nd with
        | none => simp [buildLoop, hcs]
        | some c => simp [buildLoop, hcs, hostsOf_none_of_rawHosts_none hr]
    · cases hcs : cidrOf nd with
      | none => simp [buildLoop, hcs]
      | some c =>
        cases hhs : hostsOf nd with
        | none => simp [buildLoop, hcs, hhs]
        | some hs =>
          simp only [buildLoop, hcs, hhs]
          exact buildLoop_none_of_bad rest _ p hp hbad

/-- Claim C3: for every document that is missing the `networks` field, or
that contains a network entry without a `cidr` field or without a `hosts`
field (under its `groups`), the parse-and-build step fails and the load puts
nothing on the downstream queue. -/
theorem malformed_document_no_publish (d : JVal)
    (validate : RouteSpec → Except Unit Unit) (q : List RouteSpec)
    (h : d.getField "networks" = none ∨
      ∃ p ∈ docNetworks d, cidrOf p.2 = none ∨ rawHostsOf p.2 = none) :
    parse_build d = none ∧
    load_topology_send_route_spec (.ok d) validate q = q := by
  have hpb : parse_build d = none := by
    rcases h with hn | ⟨p, hp, hbad⟩
    · simp [parse_build, hn]
    · cases hn : d.getField "networks" with
      | none => simp [parse_build, hn]
      | some v =>
        cases v with
        | obj nets =>
          have hdn : docNetworks d = nets := by simp [docNetworks, hn]
          rw [hdn] at hp
          simp only [parse_build, hn]
          exact buildLoop_none_of_bad nets [] p hp hbad
        | null => simp [parse_build, hn]
        | str s => simp [parse_build, hn]
        | num n => simp [parse_build, hn]
        | arr xs => simp [parse_build, hn]
  exact ⟨hpb, by simp [load_topology_send_route_spec, hpb]⟩

/-- Witness for C3: a document without a `networks` field fails to parse and
leaves a non-empty sink unchanged. -/
theorem malformed_document_no_publish_witness :
    parse_build (JVal.obj []) = none ∧
    load_topology_send_route_spec (.ok (JVal.obj [])) (fun _ => .ok ())
      [[(.str "10.0.0.0/24", [.str "10.0.0.1"])]] =
      [[(.str "10.0.0.0/24", [.str "10.0.0.1"])]] :=
  malformed_document_no_publish (JVal.obj []) (fun _ => .ok ()) _ (Or.inl rfl)

/-! ## Claim C4: a failed load is invisible at the sink -/

/-- One load attempt fails: the fetch/decode raises, the parse-and-build
step raises, or the validation collaborator raises. -/
def loadAttemptFails (fetch : Except Unit JVal)
    (validate : RouteSpec → Except Unit Unit) : Prop :=
  match fetch with
  | .error _ => True
  | .ok d =>
    match parse_build d with
    | none => True
    | some rs =>
      match validate rs with
      | .error _ => True
      | .ok _ => False

/-- Claim C4: for every failing load attempt (fetch, parse, build, or the
validation collaborator raises), `load_topology_send_route_spec` returns
normally (it is total, mirroring the `try/except Exception` wrapper) and the
downstream queue — the sink's last published route spec — is unchanged. -/
theorem failed_load_leaves_queue_unchanged (fetch : Except Unit JVal)
    (validate : RouteSpec → Except Unit Unit) (q : List RouteSpec)
    (h : loadAttemptFails fetch validate) :
    load_topology_send_route_spec fetch validate q = q := by
  cases fetch with
  | error e => rfl
  | ok d =>
    cases hpb : parse_build d with
    | none => simp [load_topology_send_route_spec, hpb]
    | some rs =>
      cases hv : validate rs with
      | error e => simp [load_topology_send_route_spec, hpb, hv]
      | ok u =>
        exfalso
        unfold loadAttemptFails at h
        simp [hpb, hv] at h

/-- Witness for C4: a failing fetch leaves a non-empty sink unchanged. -/
theorem failed_load_leaves_queue_unchanged_witness :
    loadAttemptFails (Except.error ()) (fun _ => Except.ok ()) ∧
    load_topology_send_route_spec (Except.error ()) (fun _ => Except.ok ())
      [[(.str "10.0.0.0/8", [])]] = [[(.str "10.0.0.0/8", [])]] :=
  ⟨trivial, failed_load_leaves_queue_unchanged _ _ _ trivial⟩

/-! ## Claims C5-C7: the reconnect logic -/

/-- An environment in which every external call succeeds and the fetched
document is the scenario document. -/
def okEnv : EtcdEnv :=
  { connect := .ok 0
    statusResult := fun _ => .ok ()
    fetch := fun _ => .ok exDoc
    validate := fun _ => .ok ()
    addWatch := fun _ => .ok 1 }

/-- The plugin state right after `__init__`: no client, no watch, empty
sink, running. -/
def freshState : PluginState :=
  { etcd := none, watch_id := none, q_route_spec := [], keep_running := true }

/-- A state holding a live client and watch handle. -/
def connectedState : PluginState :=
  { etcd := some 0, watch_id := some 1, q_route_spec := [], keep_running := true }

/-- Claim C5: on every (re)connect attempt whose guard fires and whose
client open succeeds, `establish_etcd_connection_and_watch` performs its
steps in the order: open the client, then exactly one synchronous topology
load, then register the change watch — so the first route spec publish of a
connection happens before the watch handle is established. -/
theorem connect_then_load_then_watch_order (env : EtcdEnv) (s : PluginState)
    (c : Client) (hg : connectGuard env s = true) (hc : env.connect = .ok c) :
    (establish_etcd_connection_and_watch env s).2 =
      [ConnectAction.connect, ConnectAction.initialLoad,
       ConnectAction.registerWatch] := by
  cases haw : env.addWatch c with
  | error e => simp [establish_etcd_connection_and_watch, hg, hc, haw]
  | ok w => simp [establish_etcd_connection_and_watch, hg, hc, haw]

/-- Witness for C5 at a fresh state and an all-successful environment. -/
theorem connect_then_load_then_watch_order_witness :
    (establish_etcd_connection_and_watch okEnv freshState).2 =
      [ConnectAction.connect, ConnectAction.initialLoad,
       ConnectAction.registerWatch] :=
  connect_then_load_then_watch_order okEnv freshState 0 (by decide) rfl

/-- Environment in which connecting and watch registration succeed but the
topology fetch of the initial load raises. -/
def loadFailEnv : EtcdEnv :=
  { connect := .ok 0
    statusResult := fun _ => .ok ()
    fetch := fun _ => .error ()
    validate := fun _ => .ok ()
    addWatch := fun _ => .ok 1 }

/-- Counterexample to claim C6: under `loadFailEnv` the guard fires and an
exception is raised during the initial topology load (the fetch fails), yet
`establish_etcd_connection_and_watch` returns with the client and watch
handles set (`some 0` / `some 1`), not cleared: a load-stage exception is
absorbed inside `load_topology_send_route_spec` (lines 64-66 of the source)
and never reaches the clearing `except` clause of lines 120-124. -/
theorem load_failure_keeps_handles_cex :
    connectGuard loadFailEnv freshState = true ∧
    loadFailEnv.fetch 0 = .error () ∧
    (establish_etcd_connection_and_watch loadFailEnv freshState).1.etcd = some 0 ∧
    (establish_etcd_connection_and_watch loadFailEnv freshState).1.watch_id = some 1 :=
  ⟨rfl, rfl, rfl, rfl⟩

/-- Claim C6 (amended): for every exception raised from opening the client
or from registering the watch, `establish_etcd_connection_and_watch` clears
both the client handle and the watch handle before returning; an exception
raised during the initial topology load, by contrast, is caught inside the
loader and leaves the handles as the rest of the body sets them. -/
theorem connect_or_watch_failure_clears_handles (env : EtcdEnv)
    (s : PluginState) (hg : connectGuard env s = true) :
    (env.connect = .error () →
      (establish_etcd_connection_and_watch env s).1.etcd = none ∧
      (establish_etcd_connection_and_watch env s).1.watch_id = none) ∧
    (∀ c, env.connect = .ok c → env.addWatch c = .error () →
      (establish_etcd_connection_and_watch env s).1.etcd = none ∧
      (establish_etcd_connection_and_watch env s).1.watch_id = none) := by
  constructor
  · intro hc
    simp [establish_etcd_connection_and_watch, hg, hc]
  · intro c hc haw
    simp [establish_etcd_connection_and_watch, hg, hc, haw]

/-- Environment whose client open raises. -/
def connectFailEnv : EtcdEnv :=
  { connect := .error ()
    statusResult := fun _ => .ok ()
    fetch := fun _ => .ok exDoc
    validate := fun _ => .ok ()
    addWatch := fun _ => .ok 1 }

/-- Witness for the amended C6: a failing client open clears both handles. -/
theorem connect_or_watch_failure_clears_handles_witness :
    (establish_etcd_connection_and_watch connectFailEnv freshState).1.etcd = none ∧
    (establish_etcd_connection_and_watch connectFailEnv freshState).1.watch_id = none :=
  (connect_or_watch_failure_clears_handles connectFailEnv freshState (by decide)).1 rfl

/-- Claim C7: calling `establish_etcd_connection_and_watch` when a client
handle exists, its health probe succeeds, and a watch handle is present is a
no-op: no connect, no load and no watch registration is attempted (empty
action trace) and the state — client and watch handles included — is
returned unchanged. -/
theorem healthy_connected_noop (env : EtcdEnv) (s : PluginState)
    (c : Client) (w : WatchId) (h1 : s.etcd = some c)
    (h2 : env.statusResult c = .ok ()) (h3 : s.watch_id = some w) :
    establish_etcd_connection_and_watch env s = (s, []) := by
  have hguard : connectGuard env s = false := by
    simp [connectGuard, h1, h3, etcd_check_status, h2]
  simp [establish_etcd_connection_and_watch, hguard]

/-- Witness for C7 at a connected, healthy state. -/
theorem healthy_connected_noop_witness :
    establish_etcd_connection_and_watch okEnv connectedState = (connectedState, []) :=
  healthy_connected_noop okEnv connectedState 0 1 rfl rfl rfl

/-! ## Claim C8: argument checking -/

/-- Claim C8: for every configuration whose address is `"localhost"`,
`check_arguments` raises `ArgsError` if and only if the port lies outside 1
to 65534 inclusive; in particular the external address check is skipped. -/
theorem check_arguments_port_range (ipCheck : String → Except Unit Unit)
    (port : Int) :
    check_arguments ipCheck "localhost" port = .error () ↔
      (port < 1 ∨ 65534 < port) := by
  by_cases h : 0 < port ∧ port < 65535 <;> simp [check_arguments, h] <;> omega

/-! ## Claim C9: stopping the plugin -/

/-- A thread parked in the health-check sleep after the stop flag has been
cleared. -/
def stoppedThread : ThreadState :=
  { loc := .sleeping
    st := { etcd := some 0, watch_id := some 1, q_route_spec := [],
            keep_running := false } }

/-- Claim C9: `stop` sets the running flag false and cancels the active
watch registration exactly when one exists; and once the flag is false the
`RomanaMon` thread reaches its exit from every control location — including
the `time.sleep` health-check wait — within three steps of
`watch_etcd_step`, so the `join()` call in `stop` returns. -/
theorem stop_cancels_watch_and_loop_exits (env : EtcdEnv) (s : PluginState) :
    (stop s).1.keep_running = false ∧
    (∀ w, s.watch_id = some w → (stop s).2 = [StopAction.cancelWatch w]) ∧
    (s.watch_id = none → (stop s).2 = []) ∧
    (∀ t : ThreadState, t.st.keep_running = false →
      (watch_etcd_step env (watch_etcd_step env (watch_etcd_step env t))).loc =
        ThreadLoc.exited) := by
  refine ⟨?_, ?_, ?_, ?_⟩
  · cases hw : s.watch_id <;> simp [stop, hw]
  · intro w hw; simp [stop, hw]
  · intro hw; simp [stop, hw]
  · intro t ht
    obtain ⟨loc, st⟩ := t
    cases loc <;> simp_all [watch_etcd_step]

/-- Witness for C9: stopping a connected state cancels watch 1 and the
thread, parked in its sleep, exits within three steps. -/
theorem stop_cancels_watch_and_loop_exits_witness :
    (stop connectedState).1.keep_running = false ∧
    (stop connectedState).2 = [StopAction.cancelWatch 1] ∧
    (watch_etcd_step okEnv (watch_etcd_step okEnv
      (watch_etcd_step okEnv stoppedThread))).loc = ThreadLoc.exited :=
  ⟨(stop_cancels_watch_and_loop_exits okEnv connectedState).1,
   (stop_cancels_watch_and_loop_exits okEnv connectedState).2.1 1 rfl,
   (stop_cancels_watch_and_loop_exits okEnv connectedState).2.2.2 stoppedThread rfl⟩

/-! ## Claim C10: totality of the health probe -/

/-- Claim C10: `etcd_check_status` is total at the public surface — it
returns a boolean and never raises: `true` exactly when a client connection
exists and its status call succeeds, and `false` both when no client exists
and when the underlying status call raises. -/
theorem etcd_check_status_total_spec (env : EtcdEnv) (s : PluginState) :
    (etcd_check_status env s = true ↔
      ∃ c, s.etcd = some c ∧ env.statusResult c = .ok ()) ∧
    (s.etcd = none → etcd_check_status env s = false) ∧
    (∀ c, s.etcd = some c → env.statusResult c = .error () →
      etcd_check_status env s = false) := by
  cases he : s.etcd with
  | none =>
    refine ⟨?_, fun _ => by simp [etcd_check_status, he], ?_⟩
    · simp [etcd_check_status, he]
    · intro c hc _
      simp at hc
  | some c =>
    cases hs : env.statusResult c with
    | ok u =>
      have ht : etcd_check_status env s = true := by
        simp [etcd_check_status, he, hs]
      refine ⟨⟨fun _ => ⟨c, rfl, by simp [hs]⟩, fun _ => ht⟩, ?_, ?_⟩
      · intro hn
        simp at hn
      · intro c' hc' hs'
        injection hc' with hcc
        subst hcc
        rw [hs] at hs'
        simp at hs'
    | error e =>
      have hf : etcd_check_status env s = false := by
        simp [etcd_check_status, he, hs]
      refine ⟨⟨?_, ?_⟩, fun hn => hf, fun _ _ _ => hf⟩
      · intro h
        rw [hf] at h
        simp at h
      · rintro ⟨c', hc', hs'⟩
        injection hc' with hcc
        subst hcc
        rw [hs] at hs'
        simp at hs'

/-- Witness for C10: with no client connection, the probe returns `false`
rather than raising. -/
theorem etcd_check_status_total_spec_witness :
    etcd_check_status okEnv freshState = false :=
  (etcd_check_status_total_spec okEnv freshState).2.1 rfl

end Romana
